import Mathlib

/-!
Verification of the MCP activity/trace tracking layer of the Sim-Lab
repository (`src/sim/lib/services/mcp-client.ts` and the zustand store
`mcp-workflow-activity` bundled in the same file).

Shallow embedding conventions:
* JavaScript objects used as string-keyed maps (`Record<string, T>`) are
  modelled as insertion-ordered association lists (`Rec`), matching JS
  object key iteration order for the non-integer-like keys (UUIDs) the
  store generates.  Spread insertion `{...m, [k]: v}` is `rupsert`
  (replace in place when the key exists, append otherwise), `delete` is
  `rerase`, `Object.values` / `Object.keys` / `Object.entries` are
  `rvalues` / `rkeys` / the list itself.
* `Date` timestamps are naturals (milliseconds since epoch); `new Date()`
  reads the ambient clock, so every mutating operation takes the current
  time as an explicit `now` argument.
* Optional fields are `Option`; opaque payloads (`any` in TS) are kept as
  `Option String` since no claim depends on payload structure.
* `crypto.randomUUID()` / `uuidv4()` become explicit id arguments.
-/

namespace Sim

/-- A JS object used as a string-keyed map, with insertion order. -/
abbrev Rec (α : Type) : Type := List (String × α)

/-- Models `m[k]` on a JS object (first entry with the key, as all keys are unique
in an actual object). -/
def rlookup {α : Type} (m : Rec α) (k : String) : Option α :=
  (m.find? (fun p => p.1 == k)).map (·.2)

/-- Models `{...m, [k]: v}`: replaces the value in place when `k` is present,
appends the new entry otherwise (JS object spread key order). -/
def rupsert {α : Type} (m : Rec α) (k : String) (v : α) : Rec α :=
  if m.any (fun p => p.1 == k) then
    m.map (fun p => if p.1 == k then (k, v) else p)
  else
    m ++ [(k, v)]

/-- Models `delete m[k]` (order of the remaining entries is preserved). -/
def rerase {α : Type} (m : Rec α) (k : String) : Rec α :=
  m.filter (fun p => p.1 != k)

/-- Models `Object.values(m)`. -/
def rvalues {α : Type} (m : Rec α) : List α :=
  m.map (·.2)

/-- Models `Object.keys(m)`. -/
def rkeys {α : Type} (m : Rec α) : List String :=
  m.map (·.1)

/-- Models `ActivityNodeStatus` from `mcp-workflow-activity`. -/
inductive ActivityNodeStatus : Type
  | idle
  | running
  | completed
  | error
  | warning
deriving DecidableEq, Repr

/-- Models `ActivityNode` from `mcp-workflow-activity`. -/
structure ActivityNode : Type where
  id : String
  type : String
  label : String
  description : Option String
  status : ActivityNodeStatus
  startTime : Nat
  endTime : Option Nat
  tool : Option String
  parameters : Option String
  result : Option String
  error : Option String
  chatMessageId : Option String
  parentId : Option String
deriving DecidableEq, Repr

/-- Models `ActivityConnection` from `mcp-workflow-activity`. -/
structure ActivityConnection : Type where
  id : String
  sourceId : String
  targetId : String
  label : Option String
deriving DecidableEq, Repr

/-- Models `ActivitySession` from `mcp-workflow-activity`. -/
structure ActivitySession : Type where
  id : String
  name : String
  startTime : Nat
  endTime : Option Nat
  description : Option String
deriving DecidableEq, Repr

/-- Models `CreateNodeOptions` from `mcp-workflow-activity`. -/
structure CreateNodeOptions : Type where
  type : String
  label : String
  description : Option String
  tool : Option String
  parameters : Option String
  chatMessageId : Option String
  parentId : Option String
deriving DecidableEq, Repr

/-- The data part of `WorkflowActivityState`. -/
structure WorkflowActivityState : Type where
  nodes : Rec ActivityNode
  connections : Rec ActivityConnection
  sessions : Rec ActivitySession
  activeSessionId : Option String
deriving DecidableEq, Repr

/-- The session-membership test used verbatim (inlined) by both
`clearSession` and `getSessionNodes`:
`node.startTime >= s.startTime && (!s.endTime || !node.endTime ||
node.endTime <= s.endTime)`.  A `Date` object is always JS-truthy, so
`!x` on the optional `endTime` fields tests for absence. -/
def sessionMember (sess : ActivitySession) (n : ActivityNode) : Bool :=
  decide (sess.startTime ≤ n.startTime) &&
    (sess.endTime.isNone || n.endTime.isNone ||
      decide (n.endTime.getD 0 ≤ sess.endTime.getD 0))

/-- Models `createSession` (the fresh id and current time are passed explicitly). -/
def createSession (st : WorkflowActivityState) (id : String) (name : String)
    (description : Option String) (now : Nat) : WorkflowActivityState :=
  { st with
    sessions := rupsert st.sessions id
      { id := id, name := name, startTime := now, endTime := none,
        description := description }
    activeSessionId := some id }

/-- Models `endSession`: stamps `endTime`; no-op when the session is missing. -/
def endSession (st : WorkflowActivityState) (sessionId : String) (now : Nat) :
    WorkflowActivityState :=
  match rlookup st.sessions sessionId with
  | none => st
  | some sess =>
      { st with sessions := rupsert st.sessions sessionId { sess with endTime := some now } }

/-- Models `setActiveSession`: repoints the pointer without any validation. -/
def setActiveSession (st : WorkflowActivityState) (sessionId : String) :
    WorkflowActivityState :=
  { st with activeSessionId := some sessionId }

/-- Models `createNode` (fresh id and current time passed explicitly). -/
def createNode (st : WorkflowActivityState) (id : String)
    (options : CreateNodeOptions) (now : Nat) : WorkflowActivityState :=
  { st with
    nodes := rupsert st.nodes id
      { id := id, type := options.type, label := options.label,
        description := options.description, status := ActivityNodeStatus.idle,
        startTime := now, endTime := none, tool := options.tool,
        parameters := options.parameters, result := none, error := none,
        chatMessageId := options.chatMessageId, parentId := options.parentId } }

/-- Models `updateNodeStatus`: in-place status change; no-op when missing. -/
def updateNodeStatus (st : WorkflowActivityState) (nodeId : String)
    (status : ActivityNodeStatus) : WorkflowActivityState :=
  match rlookup st.nodes nodeId with
  | none => st
  | some n =>
      { st with nodes := rupsert st.nodes nodeId { n with status := status } }

/-- Models `completeNode`: the optional `result` argument is spread onto the node
as-is (possibly absent); no-op when the node is missing. -/
def completeNode (st : WorkflowActivityState) (nodeId : String)
    (result : Option String) (now : Nat) : WorkflowActivityState :=
  match rlookup st.nodes nodeId with
  | none => st
  | some n =>
      let n' := { n with status := ActivityNodeStatus.completed,
                         endTime := some now, result := result }
      { st with nodes := rupsert st.nodes nodeId n' }

/-- Models `failNode`: attaches the mandatory error string; no-op when missing. -/
def failNode (st : WorkflowActivityState) (nodeId : String) (error : String)
    (now : Nat) : WorkflowActivityState :=
  match rlookup st.nodes nodeId with
  | none => st
  | some n =>
      let n' := { n with status := ActivityNodeStatus.error,
                         endTime := some now, error := some error }
      { st with nodes := rupsert st.nodes nodeId n' }

/-- Models `connectNodes`: inserts an edge unconditionally. -/
def connectNodes (st : WorkflowActivityState) (id : String)
    (sourceId : String) (targetId : String) (label : Option String) :
    WorkflowActivityState :=
  { st with
    connections := rupsert st.connections id
      { id := id, sourceId := sourceId, targetId := targetId, label := label } }

/-- Models `clearSession`: the filter over `Object.values(state.nodes)` tests
`state.sessions[sessionId] && <membership>` for each node, the removed id
set is collected from the member nodes, and the three maps are rebuilt by
key-preserving reduces; the active pointer is repointed to
`Object.keys(remainingSessions)[0]` when it equalled the cleared id. -/
def clearSession (st : WorkflowActivityState) (sessionId : String) :
    WorkflowActivityState :=
  let sessionNodes := (rvalues st.nodes).filter (fun node =>
    match rlookup st.sessions sessionId with
    | none => false
    | some sess => sessionMember sess node)
  let sessionNodeIds := sessionNodes.map (·.id)
  let remainingNodes := st.nodes.filter (fun p => !(sessionNodeIds.contains p.1))
  let remainingConnections := st.connections.filter (fun p =>
    !(sessionNodeIds.contains p.2.sourceId) && !(sessionNodeIds.contains p.2.targetId))
  let remainingSessions := rerase st.sessions sessionId
  let newActive :=
    if st.activeSessionId = some sessionId then (rkeys remainingSessions).head?
    else st.activeSessionId
  { nodes := remainingNodes, connections := remainingConnections,
    sessions := remainingSessions, activeSessionId := newActive }

/-- Models `clearAll`. -/
def clearAll (_st : WorkflowActivityState) : WorkflowActivityState :=
  { nodes := [], connections := [], sessions := [], activeSessionId := none }

/-- Models `getSessionNodes` selector. -/
def getSessionNodes (st : WorkflowActivityState) (sessionId : String) :
    List ActivityNode :=
  match rlookup st.sessions sessionId with
  | none => []
  | some sess => (rvalues st.nodes).filter (fun n => sessionMember sess n)

/-- Models `getSessionConnections` selector. -/
def getSessionConnections (st : WorkflowActivityState) (sessionId : String) :
    List ActivityConnection :=
  let sessionNodeIds := (getSessionNodes st sessionId).map (·.id)
  (rvalues st.connections).filter (fun c =>
    sessionNodeIds.contains c.sourceId && sessionNodeIds.contains c.targetId)

/-- Models `getNodesByStatus` selector. -/
def getNodesByStatus (st : WorkflowActivityState) (status : ActivityNodeStatus) :
    List ActivityNode :=
  (rvalues st.nodes).filter (fun n => n.status = status)

/-- Models `getNodesByType` selector. -/
def getNodesByType (st : WorkflowActivityState) (ty : String) :
    List ActivityNode :=
  (rvalues st.nodes).filter (fun n => n.type = ty)

/-- Models `getNodesByTool` selector. -/
def getNodesByTool (st : WorkflowActivityState) (tool : String) :
    List ActivityNode :=
  (rvalues st.nodes).filter (fun n => n.tool = some tool)

/-- Models `TraceSpan.status` in `mcp-client.ts`. -/
inductive SpanStatus : Type
  | pending
  | success
  | error
deriving DecidableEq, Repr

/-- Models `MCPToolResponse.status` in `mcp-client.ts`. -/
inductive RespStatus : Type
  | success
  | error
deriving DecidableEq, Repr

/-- The error object shape `{message, code, details?}` used by
`MCPToolResponse.error` and assigned to `TraceSpan.error`. -/
structure MCPError : Type where
  message : String
  code : String
  details : Option String
deriving DecidableEq, Repr

/-- Models `MCPToolResponse.timing`.  ISO timestamps are modelled as epoch
milliseconds; `endTime` is `Option Nat` with `none` standing for a
JS-falsy (absent or empty) string, and a `duration` of `0` is the JS-falsy
number, matching the `||` fallbacks in `executeTool`. -/
structure MCPTiming : Type where
  startTime : Nat
  endTime : Option Nat
  duration : Int
deriving DecidableEq, Repr

/-- Models `MCPToolResponse` from `mcp-client.ts` (payloads kept opaque). -/
structure MCPToolResponse : Type where
  requestId : String
  status : RespStatus
  result : Option String
  error : Option MCPError
  timing : MCPTiming
deriving DecidableEq, Repr

/-- Models `TraceSpan` from `mcp-client.ts`. -/
structure TraceSpan : Type where
  id : String
  name : String
  type : String
  startTime : Nat
  endTime : Nat
  duration : Int
  status : SpanStatus
  result : Option String
  error : Option MCPError
  activityNodeId : Option String
deriving DecidableEq, Repr

/-- The span initialised at the top of `MCPClient.executeTool`:
`endTime` mirrors `startTime`, `duration` is `0`, `status` is pending. -/
def initSpan (requestId : String) (toolName : String) (startTime : Nat)
    (activityNodeId : Option String) : TraceSpan :=
  { id := "mcp-" ++ requestId
    name := "MCP Tool: " ++ toolName
    type := "mcp-tool"
    startTime := startTime
    endTime := startTime
    duration := 0
    status := SpanStatus.pending
    result := none
    error := none
    activityNodeId := activityNodeId }

/-- The span update in `executeTool` once the HTTP response parsed:
`span.endTime = result.timing.endTime || endTime`,
`span.duration = result.timing.duration || (span.endTime - span.startTime)`,
`span.status = result.status`, then the payload branch. -/
def updateSpanOnResponse (span : TraceSpan) (result : MCPToolResponse)
    (clientEndTime : Nat) : TraceSpan :=
  let endTime := result.timing.endTime.getD clientEndTime
  let duration :=
    if result.timing.duration ≠ 0 then result.timing.duration
    else (endTime : Int) - (span.startTime : Int)
  let status :=
    match result.status with
    | RespStatus.success => SpanStatus.success
    | RespStatus.error => SpanStatus.error
  let span1 := { span with endTime := endTime, duration := duration, status := status }
  match result.status, result.error with
  | RespStatus.success, _ => { span1 with result := result.result }
  | RespStatus.error, some e => { span1 with error := some e }
  | RespStatus.error, none => span1

/-- The span update in the `catch` branch of `executeTool`. -/
def updateSpanOnCatch (span : TraceSpan) (now : Nat) (errorMessage : String) :
    TraceSpan :=
  { span with
    endTime := now
    duration := (now : Int) - (span.startTime : Int)
    status := SpanStatus.error
    error := some { message := errorMessage, code := "EXECUTION_ERROR", details := none } }

/-- Outcome of the `fetch('/api/mcp', ...)` call inside `executeTool`:
either a parsed `MCPToolResponse`, a non-ok HTTP response (which
`executeTool` turns into a thrown `Error` with a composed message), or a
rejection/thrown `Error` carrying its message (a non-`Error` throw yields
the literal message string `Unknown error`). -/
inductive FetchOutcome : Type
  | ok (resp : MCPToolResponse)
  | httpError (status : Nat) (statusText : String) (body : String)
  | threw (message : String)
deriving DecidableEq, Repr

/-- The message of the `Error` thrown on a non-ok HTTP response. -/
def mcpApiErrorMessage (status : Nat) (statusText : String) (body : String) :
    String :=
  s!"MCP API error: {status} {statusText} - {body}"

/-- The try/catch core of `MCPClient.executeTool`, given the fetch
outcome and the client-side completion time: returns the final trace span
and the `MCPToolResponse` the (total, never-throwing) function returns.
The workflow-store side effects (`completeNode`/`failNode` on the
activity node) act on the store modelled above and are orthogonal to the
span/response computation modelled here. -/
def executeToolRun (span : TraceSpan) (requestId : String)
    (outcome : FetchOutcome) (clientEndTime : Nat) : TraceSpan × MCPToolResponse :=
  match outcome with
  | FetchOutcome.ok resp => (updateSpanOnResponse span resp clientEndTime, resp)
  | FetchOutcome.httpError status statusText body =>
      let msg := mcpApiErrorMessage status statusText body
      let span2 := updateSpanOnCatch span clientEndTime msg
      (span2,
        { requestId := requestId
          status := RespStatus.error
          result := none
          error := some { message := msg, code := "EXECUTION_ERROR", details := none }
          timing := { startTime := span2.startTime, endTime := some clientEndTime,
                      duration := span2.duration } })
  | FetchOutcome.threw msg =>
      let span2 := updateSpanOnCatch span clientEndTime msg
      (span2,
        { requestId := requestId
          status := RespStatus.error
          result := none
          error := some { message := msg, code := "EXECUTION_ERROR", details := none }
          timing := { startTime := span2.startTime, endTime := some clientEndTime,
                      duration := span2.duration } })

/-- The `partialize` option of the `persist` middleware
(`mcp-workflow-activity`): only sessions with an `endTime` are kept;
nodes, connections and the active pointer are not persisted. -/
def persistEndedSessions (st : WorkflowActivityState) :
    Rec ActivitySession :=
  st.sessions.filter (fun p => p.2.endTime.isSome)

/-- Modelled from the spec: the zustand `persist` middleware's default
rehydration on process start (library behaviour, not repository code)
shallow-merges the persisted object over the initial state, so the
persisted `sessions` replace the initial empty map while `nodes`,
`connections` and `activeSessionId` — absent from the persisted shape —
keep their initial values (`{}`, `{}`, `undefined`). -/
def rehydrateWorkflowActivity (persisted : Rec ActivitySession) :
    WorkflowActivityState :=
  { nodes := [], connections := [], sessions := persisted,
    activeSessionId := none }

/-! Helper lemmas about the association-list operations. -/

theorem mem_of_rlookup {α : Type} {m : Rec α} {k : String} {v : α}
    (h : rlookup m k = some v) : (k, v) ∈ m := by
  unfold rlookup at h
  rcases Option.map_eq_some'.mp h with ⟨p, hfind, hsnd⟩
  have hmem := List.mem_of_find?_eq_some hfind
  have hpred := List.find?_some hfind
  have hk : p.1 = k := by simpa using hpred
  have : p = (k, v) := by
    cases p
    simp_all
  rw [← this]
  exact hmem

theorem rlookup_eq_none_iff {α : Type} {m : Rec α} {k : String} :
    rlookup m k = none ↔ ∀ p ∈ m, p.1 ≠ k := by
  unfold rlookup
  rw [Option.map_eq_none']
  rw [List.find?_eq_none]
  constructor
  · intro h p hp
    simpa using h p hp
  · intro h p hp
    simpa using h p hp

theorem key_inj {α : Type} {m : Rec α} (hnd : (m.map Prod.fst).Nodup)
    {k : String} {a b : α} (ha : (k, a) ∈ m) (hb : (k, b) ∈ m) : a = b := by
  induction m with
  | nil => cases ha
  | cons p t ih =>
      rw [List.map_cons, List.nodup_cons] at hnd
      rcases List.mem_cons.mp ha with ha1 | ha1
      · rcases List.mem_cons.mp hb with hb1 | hb1
        · rw [← ha1] at hb1
          exact (Prod.mk.injEq _ _ _ _ ▸ hb1.symm).2
        · exfalso
          apply hnd.1
          rw [← ha1]
          exact List.mem_map.mpr ⟨(k, b), hb1, rfl⟩
      · rcases List.mem_cons.mp hb with hb1 | hb1
        · exfalso
          apply hnd.1
          rw [← hb1]
          exact List.mem_map.mpr ⟨(k, a), ha1, rfl⟩
        · exact ih hnd.2 ha1 hb1

theorem find?_map_replace {α : Type} (m : Rec α) (k : String) (v : α)
    (h : m.any (fun p => p.1 == k) = true) :
    (m.map (fun p => if p.1 == k then (k, v) else p)).find? (fun p => p.1 == k)
      = some (k, v) := by
  induction m with
  | nil => simp at h
  | cons p t ih =>
      by_cases hp : p.1 = k
      · simp [hp]
      · have hp' : (p.1 == k) = false := by simpa using hp
        have ht : t.any (fun p => p.1 == k) = true := by
          simp [List.any_cons, hp'] at h
          simpa using h
        simp only [List.map_cons, hp', if_neg, ite_false]
        rw [List.find?_cons_of_neg _ (by simpa using hp)]
        exact ih ht

theorem find?_map_replace_ne {α : Type} (m : Rec α) (k k' : String) (v : α)
    (h : k' ≠ k) :
    (m.map (fun p => if p.1 == k then (k, v) else p)).find? (fun p => p.1 == k')
      = m.find? (fun p => p.1 == k') := by
  induction m with
  | nil => simp
  | cons p t ih =>
      by_cases hp : p.1 = k
      · have hpk' : ¬ (p.1 = k') := by
          rw [hp]
          exact fun hkk => h hkk.symm
        have hnew : ((k, v).1 == k') = false := by
          simpa using fun hkk => h hkk.symm
        simp only [List.map_cons, hp, beq_self_eq_true, if_pos, ite_true]
        rw [List.find?_cons_of_neg _ (by simpa using hnew),
            List.find?_cons_of_neg _ (by simpa using hpk')]
        exact ih
      · have hp' : (p.1 == k) = false := by simpa using hp
        simp only [List.map_cons, hp', ite_false]
        by_cases hq : p.1 = k'
        · rw [List.find?_cons_of_pos _ (by simpa using hq),
              List.find?_cons_of_pos _ (by simpa using hq)]
          simp
        · rw [List.find?_cons_of_neg _ (by simpa using hq),
              List.find?_cons_of_neg _ (by simpa using hq)]
          exact ih

theorem rlookup_rupsert_self {α : Type} (m : Rec α) (k : String) (v : α) :
    rlookup (rupsert m k v) k = some v := by
  unfold rupsert
  by_cases h : m.any (fun p => p.1 == k) = true
  · rw [if_pos h]
    unfold rlookup
    rw [find?_map_replace m k v h]
    rfl
  · rw [if_neg h]
    unfold rlookup
    rw [List.find?_append]
    have hnone : m.find? (fun p => p.1 == k) = none := by
      rw [List.find?_eq_none]
      intro p hp
      intro hcon
      exact h (List.any_eq_true.mpr ⟨p, hp, hcon⟩)
    rw [hnone]
    simp

theorem rlookup_rupsert_ne {α : Type} (m : Rec α) {k k' : String} (v : α)
    (h : k' ≠ k) : rlookup (rupsert m k v) k' = rlookup m k' := by
  unfold rupsert
  by_cases hb : m.any (fun p => p.1 == k) = true
  · rw [if_pos hb]
    unfold rlookup
    rw [find?_map_replace_ne m k k' v h]
  · rw [if_neg hb]
    unfold rlookup
    rw [List.find?_append]
    have hlast : ([(k, v)]).find? (fun p => p.1 == k') = none := by
      rw [List.find?_eq_none]
      intro p hp
      simp at hp
      subst hp
      simpa using fun hkk => h hkk.symm
    rw [hlast]
    cases m.find? (fun p => p.1 == k') <;> rfl

theorem rlookup_rerase_self {α : Type} (m : Rec α) (k : String) :
    rlookup (rerase m k) k = none := by
  unfold rlookup rerase
  rw [Option.map_eq_none', List.find?_eq_none]
  intro p hp
  have hne := (List.mem_filter.mp hp).2
  simp at hne
  simpa using hne

theorem rlookup_rerase_ne {α : Type} (m : Rec α) {k k' : String} (h : k' ≠ k) :
    rlookup (rerase m k) k' = rlookup m k' := by
  unfold rlookup rerase
  induction m with
  | nil => rfl
  | cons p t ih =>
      by_cases hp : p.1 = k
      · have hdrop : (p.1 != k) = false := by simpa using hp
        have hpred : (p.1 == k') = false := by
          rw [hp]
          simpa using fun hkk => h hkk.symm
        rw [List.filter_cons, hdrop]
        simp only [ite_false, Bool.false_eq_true, if_neg, not_false_iff]
        rw [List.find?_cons_of_neg _ (by simpa using hpred)]
        exact ih
      · have hkeep : (p.1 != k) = true := by simpa using hp
        rw [List.filter_cons, hkeep]
        simp only [ite_true]
        by_cases hq : p.1 = k'
        · rw [List.find?_cons_of_pos _ (by simpa using hq),
              List.find?_cons_of_pos _ (by simpa using hq)]
        · rw [List.find?_cons_of_neg _ (by simpa using hq),
              List.find?_cons_of_neg _ (by simpa using hq)]
          exact ih

/-- The membership test unfolded into a proposition. -/
theorem sessionMember_iff (sess : ActivitySession) (n : ActivityNode) :
    sessionMember sess n = true ↔
      sess.startTime ≤ n.startTime ∧
        (sess.endTime = none ∨ n.endTime = none ∨
          ∃ se ne, sess.endTime = some se ∧ n.endTime = some ne ∧ ne ≤ se) := by
  unfold sessionMember
  cases hse : sess.endTime with
  | none => simp
  | some se =>
      cases hne : n.endTime with
      | none => simp
      | some ne => simp

/-- The id set collected by `clearSession` tests, for any string, exactly
"some stored node is a session member with this id". -/
theorem sessionIds_contains (st : WorkflowActivityState) (sess : ActivitySession)
    (x : String) :
    (((rvalues st.nodes).filter (fun n => sessionMember sess n)).map
        (fun n => n.id)).contains x
      = st.nodes.any (fun q => sessionMember sess q.2 && q.2.id == x) := by
  rw [Bool.eq_iff_iff]
  constructor
  · intro h
    have hx := List.elem_iff.mp h
    rcases List.mem_map.mp hx with ⟨n, hn, hid⟩
    rcases List.mem_filter.mp hn with ⟨hval, hmem⟩
    rcases List.mem_map.mp hval with ⟨p, hp, hsnd⟩
    refine List.any_eq_true.mpr ⟨p, hp, ?_⟩
    rw [hsnd, hmem]
    simpa using hid
  · intro h
    rcases List.any_eq_true.mp h with ⟨p, hp, hcond⟩
    rw [Bool.and_eq_true] at hcond
    rcases hcond with ⟨hmem, hid⟩
    apply List.elem_iff.mpr
    refine List.mem_map.mpr ⟨p.2, List.mem_filter.mpr ⟨?_, hmem⟩, by simpa using hid⟩
    exact List.mem_map.mpr ⟨p, hp, rfl⟩

/-! Concrete fixtures used by the witnesses and counterexamples. -/

/-- A session with a closed window `[0, 100]`. -/
def sessA : ActivitySession :=
  { id := "s1", name := "S1", startTime := 0, endTime := some 100,
    description := none }

/-- An open session starting at `200`. -/
def sessB : ActivitySession :=
  { id := "s2", name := "S2", startTime := 200, endTime := none,
    description := none }

/-- A completed member node of `sessA`. -/
def nodeIn : ActivityNode :=
  { id := "n1", type := "mcp-tool", label := "A", description := none,
    status := ActivityNodeStatus.completed, startTime := 5, endTime := some 50,
    tool := some "generateImage", parameters := none, result := some "img",
    error := none, chatMessageId := none, parentId := none }

/-- A node outside `sessA` (its `endTime` falls past the window). -/
def nodeOut : ActivityNode :=
  { id := "n2", type := "mcp-tool", label := "B", description := none,
    status := ActivityNodeStatus.completed, startTime := 10, endTime := some 150,
    tool := none, parameters := none, result := none, error := none,
    chatMessageId := none, parentId := none }

/-- A running member node of `sessA` (no `endTime`). -/
def nodeRun : ActivityNode :=
  { id := "n3", type := "mcp-tool", label := "C", description := none,
    status := ActivityNodeStatus.running, startTime := 20, endTime := none,
    tool := none, parameters := none, result := none, error := none,
    chatMessageId := none, parentId := none }

/-- An edge between the two member nodes. -/
def connInIn : ActivityConnection :=
  { id := "c1", sourceId := "n1", targetId := "n3", label := none }

/-- An edge from a member node to the non-member node. -/
def connInOut : ActivityConnection :=
  { id := "c2", sourceId := "n1", targetId := "n2", label := none }

/-- A populated store state. -/
def stA : WorkflowActivityState :=
  { nodes := [("n1", nodeIn), ("n2", nodeOut), ("n3", nodeRun)],
    connections := [("c1", connInIn), ("c2", connInOut)],
    sessions := [("s1", sessA), ("s2", sessB)],
    activeSessionId := some "s1" }

/-- A store with a single idle node and nothing else. -/
def nodeIdle : ActivityNode :=
  { id := "a", type := "tool", label := "idle", description := none,
    status := ActivityNodeStatus.idle, startTime := 0, endTime := none,
    tool := none, parameters := none, result := none, error := none,
    chatMessageId := none, parentId := none }

/-- State holding only `nodeIdle`. -/
def stB : WorkflowActivityState :=
  { nodes := [("a", nodeIdle)], connections := [], sessions := [],
    activeSessionId := none }

/-- A store whose active pointer dangles: `activeSessionId` names a session
absent from the session map (reachable via `setActiveSession`, which does
not validate the id). -/
def stG : WorkflowActivityState :=
  { nodes := [], connections := [], sessions := [("s2", sessB)],
    activeSessionId := some "ghost" }

/-- A freshly initialised pending span. -/
def spanP : TraceSpan := initSpan "r1" "generateImage" 0 none

/-- A successful response whose server-side timing (`duration = 5`,
`endTime = 100`) is internally consistent with the server clock
(`startTime = 95`) but not with the client span's `startTime = 0`. -/
def respMis : MCPToolResponse :=
  { requestId := "r1", status := RespStatus.success, result := some "img",
    error := none,
    timing := { startTime := 95, endTime := some 100, duration := 5 } }

/-- A successful response carrying no usable timing (JS-falsy fields). -/
def respNoTiming : MCPToolResponse :=
  { requestId := "r1", status := RespStatus.success, result := some "img",
    error := none,
    timing := { startTime := 0, endTime := none, duration := 0 } }

/-! Claim theorems. -/

/-- C2. For every session `S` present in the sessions map and every node
`n` in the store, `getSessionNodes S.id` contains `n` iff
`n.startTime >= S.startTime` and (`S.endTime` unset, or `n.endTime` unset,
or `n.endTime <= S.endTime`); for a session id not in the map,
`getSessionNodes` returns the empty list. -/
theorem getSessionNodes_spec (st : WorkflowActivityState) (sid : String) :
    (∀ sess : ActivitySession, rlookup st.sessions sid = some sess →
      ∀ n : ActivityNode,
        n ∈ getSessionNodes st sid ↔
          n ∈ rvalues st.nodes ∧ sess.startTime ≤ n.startTime ∧
            (sess.endTime = none ∨ n.endTime = none ∨
              ∃ se ne, sess.endTime = some se ∧ n.endTime = some ne ∧ ne ≤ se)) ∧
    (rlookup st.sessions sid = none → getSessionNodes st sid = []) := by
  constructor
  · intro sess hs n
    unfold getSessionNodes
    rw [hs]
    rw [List.mem_filter]
    rw [sessionMember_iff]
  · intro h
    unfold getSessionNodes
    rw [h]

/-- Witness for C2: the member node `nodeIn` is reported for `sessA`. -/
theorem getSessionNodes_spec_witness : nodeIn ∈ getSessionNodes stA "s1" := by
  refine ((getSessionNodes_spec stA "s1").1 sessA (by decide) nodeIn).mpr
    ⟨by decide, by decide, Or.inr (Or.inr ⟨100, 50, rfl, rfl, by norm_num⟩)⟩

/-- C9. For every session `S` in the map, `getSessionConnections S.id`
returns exactly the connections both of whose endpoints are ids of nodes
that are computed members of `S` by the timestamp rule; a connection with
a dangling or non-member endpoint never appears. -/
theorem getSessionConnections_spec (st : WorkflowActivityState) (sid : String)
    (sess : ActivitySession) (hs : rlookup st.sessions sid = some sess) :
    ∀ c : ActivityConnection,
      c ∈ getSessionConnections st sid ↔
        c ∈ rvalues st.connections ∧
          (∃ n ∈ rvalues st.nodes, sessionMember sess n = true ∧ n.id = c.sourceId) ∧
          (∃ n ∈ rvalues st.nodes, sessionMember sess n = true ∧ n.id = c.targetId) := by
  intro c
  unfold getSessionConnections getSessionNodes
  rw [hs]
  rw [List.mem_filter, Bool.and_eq_true]
  constructor
  · rintro ⟨hmem, hsrc, htgt⟩
    refine ⟨hmem, ?_, ?_⟩
    · rcases List.mem_map.mp (List.elem_iff.mp hsrc) with ⟨n, hn, hid⟩
      rcases List.mem_filter.mp hn with ⟨hval, hm⟩
      exact ⟨n, hval, hm, hid⟩
    · rcases List.mem_map.mp (List.elem_iff.mp htgt) with ⟨n, hn, hid⟩
      rcases List.mem_filter.mp hn with ⟨hval, hm⟩
      exact ⟨n, hval, hm, hid⟩
  · rintro ⟨hmem, ⟨ns, hns, hms, hids⟩, ⟨nt, hnt, hmt, hidt⟩⟩
    refine ⟨hmem, ?_, ?_⟩
    · exact List.elem_iff.mpr
        (List.mem_map.mpr ⟨ns, List.mem_filter.mpr ⟨hns, hms⟩, hids⟩)
    · exact List.elem_iff.mpr
        (List.mem_map.mpr ⟨nt, List.mem_filter.mpr ⟨hnt, hmt⟩, hidt⟩)

/-- Witness for C9: the member-to-member edge `connInIn` is reported. -/
theorem getSessionConnections_spec_witness :
    connInIn ∈ getSessionConnections stA "s1" := by
  refine (getSessionConnections_spec stA "s1" sessA (by decide) connInIn).mpr
    ⟨by decide, ⟨nodeIn, by decide, by decide, rfl⟩, ⟨nodeRun, by decide, by decide, rfl⟩⟩

/-- C6. Persisting the store and reloading reconstructs a session map
holding exactly the sessions with an `endTime` (records preserved
verbatim, so same id/name/startTime/endTime); sessions without an
`endTime` are absent after reload, and nodes, connections and
`activeSessionId` are not persisted (empty/undefined after restart). -/
theorem persistRoundTrip_spec (st : WorkflowActivityState) :
    (rehydrateWorkflowActivity (persistEndedSessions st)).sessions
        = st.sessions.filter (fun p => p.2.endTime.isSome) ∧
    (∀ (k : String) (sess : ActivitySession),
      (k, sess) ∈ (rehydrateWorkflowActivity (persistEndedSessions st)).sessions
        ↔ (k, sess) ∈ st.sessions ∧ sess.endTime.isSome = true) ∧
    (rehydrateWorkflowActivity (persistEndedSessions st)).nodes = [] ∧
    (rehydrateWorkflowActivity (persistEndedSessions st)).connections = [] ∧
    (rehydrateWorkflowActivity (persistEndedSessions st)).activeSessionId
        = none := by
  refine ⟨rfl, ?_, rfl, rfl, rfl⟩
  intro k sess
  unfold rehydrateWorkflowActivity persistEndedSessions
  exact List.mem_filter

/-- Witness for C6 at the concrete state `stA`: the ended session survives
the round trip, the open one does not, and the volatile parts reset. -/
theorem persistRoundTrip_spec_witness :
    ("s1", sessA) ∈ (rehydrateWorkflowActivity (persistEndedSessions stA)).sessions :=
  ((persistRoundTrip_spec stA).2.1 "s1" sessA).mpr ⟨by decide, by decide⟩

/-- C8. Whenever the transport fails (non-ok HTTP response) or the
underlying operation throws, `executeTool` marks the trace span `error`
with code `EXECUTION_ERROR` and the caller's error message, and itself
returns (never throws — the model is a total function) an
`MCPToolResponse` with status `error`. -/
theorem executeTool_failure_spec :
    (∀ (span : TraceSpan) (rid : String) (status : Nat)
        (statusText body : String) (tEnd : Nat),
      ((executeToolRun span rid (FetchOutcome.httpError status statusText body) tEnd).1).status
          = SpanStatus.error ∧
      ((executeToolRun span rid (FetchOutcome.httpError status statusText body) tEnd).1).error
          = some { message := mcpApiErrorMessage status statusText body,
                   code := "EXECUTION_ERROR", details := none } ∧
      ((executeToolRun span rid (FetchOutcome.httpError status statusText body) tEnd).2).status
          = RespStatus.error ∧
      ((executeToolRun span rid (FetchOutcome.httpError status statusText body) tEnd).2).error
          = some { message := mcpApiErrorMessage status statusText body,
                   code := "EXECUTION_ERROR", details := none } ∧
      ((executeToolRun span rid (FetchOutcome.httpError status statusText body) tEnd).2).requestId
          = rid) ∧
    (∀ (span : TraceSpan) (rid msg : String) (tEnd : Nat),
      ((executeToolRun span rid (FetchOutcome.threw msg) tEnd).1).status
          = SpanStatus.error ∧
      ((executeToolRun span rid (FetchOutcome.threw msg) tEnd).1).error
          = some { message := msg, code := "EXECUTION_ERROR", details := none } ∧
      ((executeToolRun span rid (FetchOutcome.threw msg) tEnd).2).status
          = RespStatus.error ∧
      ((executeToolRun span rid (FetchOutcome.threw msg) tEnd).2).error
          = some { message := msg, code := "EXECUTION_ERROR", details := none } ∧
      ((executeToolRun span rid (FetchOutcome.threw msg) tEnd).2).requestId = rid) := by
  constructor
  · intro span rid status statusText body tEnd
    exact ⟨rfl, rfl, rfl, rfl, rfl⟩
  · intro span rid msg tEnd
    exact ⟨rfl, rfl, rfl, rfl, rfl⟩

/-- C10. `completeNode`, `failNode` and `updateNodeStatus` modify only
the targeted node's `status`, `endTime` and their own payload field (the
record-update equalities show every other field — including the *other*
payload field — carried over unchanged), leave every other node, the
connections, sessions and active pointer untouched; selectors are pure
functions of the state in this embedding and produce no state at all. -/
theorem nodeOps_frame_spec (st : WorkflowActivityState) (k : String)
    (n : ActivityNode) (hn : rlookup st.nodes k = some n) :
    (∀ (r : Option String) (now : Nat),
      rlookup (completeNode st k r now).nodes k
          = some { n with status := ActivityNodeStatus.completed,
                          endTime := some now, result := r } ∧
      (completeNode st k r now).connections = st.connections ∧
      (completeNode st k r now).sessions = st.sessions ∧
      (completeNode st k r now).activeSessionId = st.activeSessionId ∧
      ∀ k', k' ≠ k → rlookup (completeNode st k r now).nodes k' = rlookup st.nodes k') ∧
    (∀ (e : String) (now : Nat),
      rlookup (failNode st k e now).nodes k
          = some { n with status := ActivityNodeStatus.error,
                          endTime := some now, error := some e } ∧
      (failNode st k e now).connections = st.connections ∧
      (failNode st k e now).sessions = st.sessions ∧
      (failNode st k e now).activeSessionId = st.activeSessionId ∧
      ∀ k', k' ≠ k → rlookup (failNode st k e now).nodes k' = rlookup st.nodes k') ∧
    (∀ s : ActivityNodeStatus,
      rlookup (updateNodeStatus st k s).nodes k = some { n with status := s } ∧
      (updateNodeStatus st k s).connections = st.connections ∧
      (updateNodeStatus st k s).sessions = st.sessions ∧
      (updateNodeStatus st k s).activeSessionId = st.activeSessionId ∧
      ∀ k', k' ≠ k → rlookup (updateNodeStatus st k s).nodes k' = rlookup st.nodes k') := by
  refine ⟨?_, ?_, ?_⟩
  · intro r now
    exact ⟨by simp only [completeNode, hn]; exact rlookup_rupsert_self _ _ _,
      by simp only [completeNode, hn],
      by simp only [completeNode, hn],
      by simp only [completeNode, hn],
      fun k' hk' => by
        simp only [completeNode, hn]; exact rlookup_rupsert_ne _ _ hk'⟩
  · intro e now
    exact ⟨by simp only [failNode, hn]; exact rlookup_rupsert_self _ _ _,
      by simp only [failNode, hn],
      by simp only [failNode, hn],
      by simp only [failNode, hn],
      fun k' hk' => by
        simp only [failNode, hn]; exact rlookup_rupsert_ne _ _ hk'⟩
  · intro s
    exact ⟨by simp only [updateNodeStatus, hn]; exact rlookup_rupsert_self _ _ _,
      by simp only [updateNodeStatus, hn],
      by simp only [updateNodeStatus, hn],
      by simp only [updateNodeStatus, hn],
      fun k' hk' => by
        simp only [updateNodeStatus, hn]; exact rlookup_rupsert_ne _ _ hk'⟩

/-- Witness for C10: completing `n1` in `stA` rewrites exactly
status/endTime/result. -/
theorem nodeOps_frame_spec_witness :
    rlookup (completeNode stA "n1" (some "res") 60).nodes "n1"
      = some { nodeIn with status := ActivityNodeStatus.completed,
                           endTime := some 60, result := some "res" } :=
  ((nodeOps_frame_spec stA "n1" nodeIn (by decide)).1 (some "res") 60).1

/-- C3, counterexample. The claim says a node in a terminal state is
left unchanged by `updateNodeStatus`/`completeNode`/`failNode`; but the
store has no terminal-state guard: `updateNodeStatus` moves the completed
node `n1` back to `running`. -/
theorem terminalImmutable_ce :
    (rlookup stA.nodes "n1").map ActivityNode.status
        = some ActivityNodeStatus.completed ∧
    rlookup (updateNodeStatus stA "n1" ActivityNodeStatus.running).nodes "n1"
        ≠ rlookup stA.nodes "n1" ∧
    (rlookup (updateNodeStatus stA "n1" ActivityNodeStatus.running).nodes "n1").map
        ActivityNode.status = some ActivityNodeStatus.running := by
  decide

/-- C3, amended. The store does not enforce terminal-state
immutability: `updateNodeStatus`, `completeNode` and `failNode` targeting
a terminal node's id mutate it exactly as they would any existing node,
while a terminal node is unchanged by those operations targeting any
other id (the `idle → running → {completed|error}` lifecycle is kept by
the store's caller `MCPClient.executeTool`, not by the store). -/
theorem terminalOps_spec (st : WorkflowActivityState) (k : String)
    (n : ActivityNode) (hn : rlookup st.nodes k = some n)
    (_hterm : n.status = ActivityNodeStatus.completed ∨
              n.status = ActivityNodeStatus.error) :
    (∀ s : ActivityNodeStatus,
      rlookup (updateNodeStatus st k s).nodes k = some { n with status := s }) ∧
    (∀ (r : Option String) (now : Nat),
      rlookup (completeNode st k r now).nodes k
        = some { n with status := ActivityNodeStatus.completed,
                        endTime := some now, result := r }) ∧
    (∀ (e : String) (now : Nat),
      rlookup (failNode st k e now).nodes k
        = some { n with status := ActivityNodeStatus.error,
                        endTime := some now, error := some e }) ∧
    (∀ (k' : String) (s : ActivityNodeStatus), k' ≠ k →
      rlookup (updateNodeStatus st k' s).nodes k = rlookup st.nodes k) ∧
    (∀ (k' : String) (r : Option String) (now : Nat), k' ≠ k →
      rlookup (completeNode st k' r now).nodes k = rlookup st.nodes k) ∧
    (∀ (k' : String) (e : String) (now : Nat), k' ≠ k →
      rlookup (failNode st k' e now).nodes k = rlookup st.nodes k) := by
  refine ⟨?_, ?_, ?_, ?_, ?_, ?_⟩
  · intro s
    simp only [updateNodeStatus, hn]
    exact rlookup_rupsert_self _ _ _
  · intro r now
    simp only [completeNode, hn]
    exact rlookup_rupsert_self _ _ _
  · intro e now
    simp only [failNode, hn]
    exact rlookup_rupsert_self _ _ _
  · intro k' s hk'
    unfold updateNodeStatus
    cases h : rlookup st.nodes k' with
    | none => rfl
    | some m => exact rlookup_rupsert_ne _ _ (Ne.symm hk')
  · intro k' r now hk'
    unfold completeNode
    cases h : rlookup st.nodes k' with
    | none => rfl
    | some m => exact rlookup_rupsert_ne _ _ (Ne.symm hk')
  · intro k' e now hk'
    unfold failNode
    cases h : rlookup st.nodes k' with
    | none => rfl
    | some m => exact rlookup_rupsert_ne _ _ (Ne.symm hk')

/-- Witness for the amended C3: the completed node `n1` is indeed moved
back to `running` by a direct `updateNodeStatus` call, and is untouched
by an operation on the other node `n2`. -/
theorem terminalOps_spec_witness :
    rlookup (updateNodeStatus stA "n1" ActivityNodeStatus.running).nodes "n1"
      = some { nodeIn with status := ActivityNodeStatus.running } :=
  (terminalOps_spec stA "n1" nodeIn (by decide) (Or.inl (by decide))).1
    ActivityNodeStatus.running

/-- C4, counterexample. "Exactly one of `result`/`error` populated
post-call" fails twice over: completing a node that previously failed
leaves *both* payloads populated (the spread does not clear `error`), and
completing a fresh node with an absent result payload leaves *neither*
populated. -/
theorem completeFail_exclusive_ce :
    ((rlookup (completeNode (failNode stB "a" "boom" 5) "a" (some "ok") 6).nodes "a").map
        (fun n => (n.status, n.result, n.error))
      = some (ActivityNodeStatus.completed, some "ok", some "boom")) ∧
    ((rlookup (completeNode stB "a" none 5).nodes "a").map
        (fun n => (n.status, n.result, n.error))
      = some (ActivityNodeStatus.completed, none, none)) := by
  decide

/-- C4, amended. After `completeNode`/`failNode` on an existing node
the status is terminal, `endTime` is the call time (hence
`endTime >= startTime` whenever the clock reading is not before the
node's creation), and the call's own payload field is populated; the
other payload field is carried over unchanged, so "exactly one populated"
holds exactly when the other field was unset before the call and (for
`completeNode`) a result payload was actually supplied. -/
theorem completeFail_post_spec (st : WorkflowActivityState) (k : String)
    (n : ActivityNode) (now : Nat) (hn : rlookup st.nodes k = some n)
    (hclock : n.startTime ≤ now) :
    (∀ r : String, ∃ m : ActivityNode,
      rlookup (completeNode st k (some r) now).nodes k = some m ∧
      m.status = ActivityNodeStatus.completed ∧ m.endTime = some now ∧
      m.startTime ≤ now ∧ m.result = some r ∧ m.error = n.error) ∧
    (∀ e : String, ∃ m : ActivityNode,
      rlookup (failNode st k e now).nodes k = some m ∧
      m.status = ActivityNodeStatus.error ∧ m.endTime = some now ∧
      m.startTime ≤ now ∧ m.error = some e ∧ m.result = n.result) := by
  constructor
  · intro r
    refine ⟨{ n with status := ActivityNodeStatus.completed,
                     endTime := some now, result := some r }, ?_, rfl, rfl,
            hclock, rfl, rfl⟩
    simp only [completeNode, hn]
    exact rlookup_rupsert_self _ _ _
  · intro e
    refine ⟨{ n with status := ActivityNodeStatus.error,
                     endTime := some now, error := some e }, ?_, rfl, rfl,
            hclock, rfl, rfl⟩
    simp only [failNode, hn]
    exact rlookup_rupsert_self _ _ _

/-- Witness for the amended C4 at `stB`/`nodeIdle`. -/
theorem completeFail_post_spec_witness :
    ∃ m : ActivityNode,
      rlookup (completeNode stB "a" (some "ok") 7).nodes "a" = some m ∧
      m.status = ActivityNodeStatus.completed ∧ m.endTime = some 7 ∧
      m.startTime ≤ 7 ∧ m.result = some "ok" ∧ m.error = nodeIdle.error :=
  (completeFail_post_spec stB "a" nodeIdle 7 (by decide) (by decide)).1 "ok"

/-- C5, counterexample. After a success response carrying a truthy
server-side `timing.duration`, the span adopts the server's duration and
endTime while keeping the client-side `startTime`, so
`duration = endTime - startTime` fails on the terminal span. -/
theorem spanTiming_ce :
    (updateSpanOnResponse spanP respMis 100).status = SpanStatus.success ∧
    (updateSpanOnResponse spanP respMis 100).duration ≠
      ((updateSpanOnResponse spanP respMis 100).endTime : Int)
        - ((updateSpanOnResponse spanP respMis 100).startTime : Int) := by
  decide

/-- C5, amended. While pending, `endTime` mirrors `startTime` and
`duration = 0`; after the catch-branch terminal transition
`duration = endTime - startTime` holds; after a response-driven terminal
transition it holds whenever the response carries no truthy
`timing.duration` (the fallback computes the difference), but when the
server supplies a nonzero duration the span adopts it verbatim, and it
need not equal `endTime - startTime` of the span. -/
theorem spanTiming_spec :
    (∀ (rid tn : String) (t : Nat) (aid : Option String),
      (initSpan rid tn t aid).status = SpanStatus.pending ∧
      (initSpan rid tn t aid).endTime = (initSpan rid tn t aid).startTime ∧
      (initSpan rid tn t aid).duration = 0) ∧
    (∀ (span : TraceSpan) (now : Nat) (msg : String),
      (updateSpanOnCatch span now msg).status = SpanStatus.error ∧
      (updateSpanOnCatch span now msg).duration =
        ((updateSpanOnCatch span now msg).endTime : Int)
          - ((updateSpanOnCatch span now msg).startTime : Int)) ∧
    (∀ (span : TraceSpan) (resp : MCPToolResponse) (tEnd : Nat),
      resp.timing.duration = 0 →
      (updateSpanOnResponse span resp tEnd).duration =
        ((updateSpanOnResponse span resp tEnd).endTime : Int)
          - ((updateSpanOnResponse span resp tEnd).startTime : Int)) := by
  refine ⟨?_, ?_, ?_⟩
  · intro rid tn t aid
    exact ⟨rfl, rfl, rfl⟩
  · intro span now msg
    exact ⟨rfl, rfl⟩
  · intro span resp tEnd hz
    unfold updateSpanOnResponse
    rw [hz]
    cases hst : resp.status with
    | success => simp
    | error =>
        cases herr : resp.error with
        | none => simp
        | some e => simp

/-- Witness for the amended C5: a response without usable timing yields a
span whose duration is the measured difference. -/
theorem spanTiming_spec_witness :
    (updateSpanOnResponse spanP respNoTiming 100).duration =
      ((updateSpanOnResponse spanP respNoTiming 100).endTime : Int)
        - ((updateSpanOnResponse spanP respNoTiming 100).startTime : Int) :=
  spanTiming_spec.2.2 spanP respNoTiming 100 (by decide)

/-- C7, counterexample. `clearSession` on a *nonexistent* session id
does not always leave the state unchanged: when the active pointer
dangles on exactly that id (reachable via the unvalidated
`setActiveSession`), the pointer is repointed to the first remaining
session key. -/
theorem missingSession_ce :
    rlookup stG.sessions "ghost" = none ∧
    clearSession stG "ghost" ≠ stG ∧
    (clearSession stG "ghost").activeSessionId = some "s2" := by
  decide

/-- C7, amended. `updateNodeStatus`/`completeNode`/`failNode` on a
nonexistent node id and `endSession` on a nonexistent session id are
complete no-ops (and, being total functions, throw nothing);
`clearSession` on a nonexistent session id leaves nodes, connections and
sessions unchanged and leaves `activeSessionId` unchanged *unless* the
active pointer itself equals the missing id, in which case it is
repointed to the first key of the (unchanged) session map, `none` when
the map is empty. -/
theorem missingId_noop_spec (st : WorkflowActivityState) :
    (∀ (nid : String) (s : ActivityNodeStatus) (r : Option String)
        (e : String) (now : Nat),
      rlookup st.nodes nid = none →
      updateNodeStatus st nid s = st ∧ completeNode st nid r now = st ∧
        failNode st nid e now = st) ∧
    (∀ (sid : String) (now : Nat), rlookup st.sessions sid = none →
      endSession st sid now = st ∧
      (clearSession st sid).nodes = st.nodes ∧
      (clearSession st sid).connections = st.connections ∧
      (clearSession st sid).sessions = st.sessions ∧
      (st.activeSessionId ≠ some sid →
        (clearSession st sid).activeSessionId = st.activeSessionId) ∧
      (st.activeSessionId = some sid →
        (clearSession st sid).activeSessionId = (rkeys st.sessions).head?)) := by
  constructor
  · intro nid s r e now h
    refine ⟨?_, ?_, ?_⟩
    · unfold updateNodeStatus
      rw [h]
    · unfold completeNode
      rw [h]
    · unfold failNode
      rw [h]
  · intro sid now h
    have hsess : rerase st.sessions sid = st.sessions := by
      unfold rerase
      apply List.filter_eq_self.mpr
      intro p hp
      simpa using rlookup_eq_none_iff.mp h p hp
    refine ⟨?_, ?_, ?_, ?_, ?_, ?_⟩
    · unfold endSession
      rw [h]
    · simp [clearSession, h]
    · simp [clearSession, h]
    · simp only [clearSession]
      exact hsess
    · intro hne
      simp only [clearSession]
      rw [if_neg hne]
    · intro heq
      simp only [clearSession]
      rw [if_pos heq, hsess]

/-- Witness for the amended C7: operations on the absent ids leave `stA`
unchanged. -/
theorem missingId_noop_spec_witness :
    updateNodeStatus stA "zzz" ActivityNodeStatus.running = stA :=
  ((missingId_noop_spec stA).1 "zzz" ActivityNodeStatus.running none "e" 0
    (by decide)).1

/-- C1. For a session id `sid` present in the sessions map,
`clearSession sid` keeps exactly the nodes whose computed membership
(startTime/endTime against the session window) places them *outside* the
session, keeps exactly the connections neither endpoint of which is the
id of a removed (member) node, deletes the session record (all other
session records untouched), and repoints the active pointer — when it
named the cleared session — to the first remaining key in iteration
order (`none` when none remain).  The hypotheses are the store's map
invariants: each node entry's value carries its key as `id`, and keys are
unique (both hold for every state built through the store's API). -/
theorem clearSession_spec (st : WorkflowActivityState) (sid : String)
    (sess : ActivitySession) (hs : rlookup st.sessions sid = some sess)
    (hid : ∀ p ∈ st.nodes, (Prod.snd p).id = p.1)
    (hnd : (st.nodes.map Prod.fst).Nodup) :
    (clearSession st sid).nodes
        = st.nodes.filter (fun p => !(sessionMember sess p.2)) ∧
    (clearSession st sid).connections
        = st.connections.filter (fun p =>
            !(st.nodes.any (fun q => sessionMember sess q.2 && q.2.id == p.2.sourceId)) &&
            !(st.nodes.any (fun q => sessionMember sess q.2 && q.2.id == p.2.targetId))) ∧
    rlookup (clearSession st sid).sessions sid = none ∧
    (∀ sid' : String, sid' ≠ sid →
      rlookup (clearSession st sid).sessions sid' = rlookup st.sessions sid') ∧
    (clearSession st sid).activeSessionId
        = (if st.activeSessionId = some sid
           then (rkeys (rerase st.sessions sid)).head?
           else st.activeSessionId) := by
  refine ⟨?_, ?_, ?_, ?_, ?_⟩
  · simp only [clearSession, hs]
    apply List.filter_congr
    intro p hp
    rw [sessionIds_contains]
    have hkey : st.nodes.any (fun q => sessionMember sess q.2 && q.2.id == p.1)
        = sessionMember sess p.2 := by
      rw [Bool.eq_iff_iff]
      constructor
      · intro ha
        rcases List.any_eq_true.mp ha with ⟨q, hq, hcond⟩
        rw [Bool.and_eq_true] at hcond
        rcases hcond with ⟨hm, hqid⟩
        have hqid' : q.2.id = p.1 := by simpa using hqid
        have hq1 : q.1 = p.1 := by rw [← hid q hq]; exact hqid'
        have hqmem : (p.1, q.2) ∈ st.nodes := by
          rw [← hq1, Prod.mk.eta]
          exact hq
        have hpmem : (p.1, p.2) ∈ st.nodes := by
          rw [Prod.mk.eta]
          exact hp
        rw [← key_inj hnd hqmem hpmem]
        exact hm
      · intro hmem
        refine List.any_eq_true.mpr ⟨p, hp, ?_⟩
        rw [Bool.and_eq_true]
        exact ⟨hmem, by rw [hid p hp]; exact beq_self_eq_true _⟩
    rw [hkey]
  · simp only [clearSession, hs]
    apply List.filter_congr
    intro p _hp
    rw [sessionIds_contains, sessionIds_contains]
  · simp only [clearSession]
    exact rlookup_rerase_self _ _
  · intro sid' h
    simp only [clearSession]
    exact rlookup_rerase_ne _ h
  · rfl

/-- Witness for C1: clearing `s1` from `stA` keeps exactly the non-member
node entries. -/
theorem clearSession_spec_witness :
    (clearSession stA "s1").nodes
      = stA.nodes.filter (fun p => !(sessionMember sessA p.2)) :=
  (clearSession_spec stA "s1" sessA (by decide) (by decide) (by decide)).1

end Sim
